import Mathlib

/-!
Verification of the gemini-mcp-server HTTP session-transport lifecycle
manager and its collaborators, as a shallow embedding in Lean 4.

The embedding covers:
- the `/mcp` request router (src/unnamed/part_001, `app.all('/mcp')`),
- the session registry `transports` and its register/remove callbacks,
- the `handleShutdown` close loop and the process-event handler tables of
  both entry points (HTTP and stdio),
- the `callGemini` tool error path (`geminiTool.ts` catch branch,
  `ExternalApiError`, `formatErrorForUser`),
- the zod input schema `geminiToolSchema`,
- the `sanitizeMetadata` log redaction (dist/utils/logger.js).

JavaScript numbers appearing in the tool schema are embedded as `Rat`
(only order comparisons and integrality tests occur, and every literal
involved is exactly representable).  JS strings are embedded as `String`,
with `Char.toLower` standing for the ASCII lower-casing that
`String.prototype.toLowerCase` performs on the key names involved.
Fallible JS operations are embedded as `Except String`.
-/

namespace GeminiMcp

/-! ## Request router (src/unnamed/part_001 lines 85-136) -/

/-- Outcome of the `/mcp` route classification. -/
inductive RouteOutcome
  | continueSession (id : String)
  | beginSession
  | reject (status : Nat) (errorBody : String)
  deriving DecidableEq, Repr

/-- JS truthiness of `req.headers['mcp-session-id']` (a `string | undefined`):
`undefined` and the empty string are falsy. -/
def headerTruthy : Option String → Bool
  | none => false
  | some s => !(s == "")

/-- The `transports[sessionId]` part of the first guard; only reached when the
header is truthy, in which case the value is a string key. -/
def lookupGuard (registered : String → Bool) : Option String → Bool
  | none => false
  | some id => registered id

/-- Translation of the classification in the `app.all('/mcp')` handler:
`if (sessionId && transports[sessionId])` continue the session, `else if
(!sessionId && req.method === 'POST' && isInitializeRequest(req.body))`
begin a new one, `else` respond 400 with error `"Invalid MCP request"`.
`registered` is the membership of the `transports` record, `bodyIsInit` the
value of `isInitializeRequest(req.body)`. -/
def routeMcp (registered : String → Bool) (sessionId : Option String)
    (method : String) (bodyIsInit : Bool) : RouteOutcome :=
  if headerTruthy sessionId && lookupGuard registered sessionId then
    RouteOutcome.continueSession (sessionId.getD "")
  else if !headerTruthy sessionId && (method == "POST") && bodyIsInit then
    RouteOutcome.beginSession
  else
    RouteOutcome.reject 400 "Invalid MCP request"

/-- The classification procedure exactly as claim C1 words it: branch 1 fires
whenever the request carries a session-id header whose value is registered;
branch 2 requires the header to be absent; everything else is rejected.
This definition follows the claim, not the source, and is compared against
`routeMcp`. -/
def claimRouteC1 (registered : String → Bool) (sessionId : Option String)
    (method : String) (bodyIsInit : Bool) : RouteOutcome :=
  match sessionId with
  | some id =>
    if registered id then RouteOutcome.continueSession id
    else RouteOutcome.reject 400 "Invalid MCP request"
  | none =>
    if method == "POST" && bodyIsInit then RouteOutcome.beginSession
    else RouteOutcome.reject 400 "Invalid MCP request"

/-! ## Session registry (src/unnamed/part_001 lines 29, 93-111)

The `transports` record is embedded as an association list with the three
JS object primitives used by the source: property read, property write
(the `onsessioninitialized` callback) and `delete` (the `onclose`
callback). -/

/-- A transport instance, distinguished only by identity. -/
abbrev Transport := Nat

abbrev Registry := List (String × Transport)

/-- JS property read `transports[id]`. -/
def rget (r : Registry) (id : String) : Option Transport :=
  (r.find? (fun p => p.1 == id)).map (fun p => p.2)

/-- JS property write `transports[id] = t` (the `onsessioninitialized`
callback body). -/
def rset (r : Registry) (id : String) (t : Transport) : Registry :=
  (id, t) :: r.filter (fun p => !(p.1 == id))

/-- JS `delete transports[id]`. -/
def rdel (r : Registry) (id : String) : Registry :=
  r.filter (fun p => !(p.1 == id))

/-- One registry mutation: a session initialization registering `id ↦ t`, or
a close handler removing `id`. -/
inductive RegEvent
  | reg (id : String) (t : Transport)
  | rem (id : String)
  deriving DecidableEq, Repr

def applyEvent (r : Registry) : RegEvent → Registry
  | RegEvent.reg id t => rset r id t
  | RegEvent.rem id => rdel r id

def runFrom (r : Registry) (es : List RegEvent) : Registry :=
  es.foldl applyEvent r

/-- The registry after a sequence of mutations, starting from the empty
record created at module load. -/
def runEvents (es : List RegEvent) : Registry := runFrom [] es

/-- Freshness discipline of the id generator: `randomUUID` never issues an
id that is currently registered (the spec's precondition on `register`). -/
def wfFrom (r : Registry) : List RegEvent → Bool
  | [] => true
  | RegEvent.reg id t :: es => (rget r id).isNone && wfFrom (rset r id t) es
  | RegEvent.rem id :: es => wfFrom (rdel r id) es

/-- Translation of `transport.onclose`: if `transport.sessionId` is set
(undefined before the handshake, and the empty string is JS-falsy) and
still present in `transports`, delete it and log; otherwise do nothing. -/
def oncloseHandler (r : Registry) (sid : Option String) : Registry :=
  match sid with
  | none => r
  | some id => if !(id == "") && (rget r id).isSome then rdel r id else r

/-! ## Process-wide shutdown (src/unnamed/part_001 lines 141-185) -/

/-- Log of one run of `handleShutdown`'s close loop. -/
structure ShutAcc where
  closeAttempts : List String
  closedOk : List String
  closeWarnings : List (String × String)
  deriving DecidableEq, Repr

/-- JS `for..in` loop semantics: an exception escaping the body aborts the
loop and propagates. -/
def jsForIn {σ : Type} (body : String → σ → Except String σ) :
    List String → σ → Except String σ
  | [], s => Except.ok s
  | x :: xs, s =>
    match body x s with
    | Except.ok s' => jsForIn body xs s'
    | Except.error e => Except.error e

/-- Body of the close loop: `try { await transports[sessionId].close();
logger.debug(...) } catch (error) { logger.warn(...) }`.  The `catch`
swallows the exception, so the body never propagates one.
`closeBehavior sid` is the outcome of that transport's `close()`. -/
def closeLoopBody (closeBehavior : String → Except String Unit)
    (sid : String) (acc : ShutAcc) : Except String ShutAcc :=
  let acc1 : ShutAcc := { acc with closeAttempts := acc.closeAttempts ++ [sid] }
  match closeBehavior sid with
  | Except.ok _ => Except.ok { acc1 with closedOk := acc1.closedOk ++ [sid] }
  | Except.error e =>
    Except.ok { acc1 with closeWarnings := acc1.closeWarnings ++ [(sid, e)] }

/-- Observable outcome of one run of `handleShutdown`. -/
structure ShutResult where
  closes : ShutAcc
  serverCloseAttempted : Bool
  serverClosedOk : Bool
  exitCode : Nat
  deriving DecidableEq, Repr

/-- Translation of `handleShutdown`: run the close loop over the sessions
registered at entry, then `try { await mcpServer.close() } catch`, then
`process.exit(0)`.  An `Except.error` result would mean an exception
escaped `handleShutdown` before reaching `process.exit`. -/
def handleShutdown (snapshot : List String)
    (closeBehavior : String → Except String Unit)
    (serverClose : Except String Unit) : Except String ShutResult :=
  match jsForIn (closeLoopBody closeBehavior) snapshot ⟨[], [], []⟩ with
  | Except.error e => Except.error e
  | Except.ok acc =>
    Except.ok
      { closes := acc
        serverCloseAttempted := true
        serverClosedOk :=
          match serverClose with
          | Except.ok _ => true
          | Except.error _ => false
        exitCode := 0 }

/-- Whether a transport close succeeds (used to state the C3 theorem). -/
def closeOk (closeBehavior : String → Except String Unit) (sid : String) : Bool :=
  match closeBehavior sid with
  | Except.ok _ => true
  | Except.error _ => false

/-- The warning entry the close loop produces for `sid`, if any. -/
def closeWarnOf (closeBehavior : String → Except String Unit) (sid : String) :
    Option (String × String) :=
  match closeBehavior sid with
  | Except.ok _ => none
  | Except.error e => some (sid, e)

/-- Whether an async operation succeeded. -/
def exceptOk : Except String Unit → Bool
  | Except.ok _ => true
  | Except.error _ => false

/-! ## Process-event handler tables (src/unnamed/part_001 lines 141-155 and
src/src/index.ts lines 65-80) -/

/-- Process-level events for which `setupGracefulShutdown` registers
handlers. -/
inductive ProcEvent
  | sigint
  | sigterm
  | uncaughtException
  | unhandledRejection
  deriving DecidableEq, Repr

/-- What a registered handler body does. -/
inductive HandlerAction
  | logIt
  | invokeShutdown
  deriving DecidableEq, Repr

/-- Handler bodies registered by `setupGracefulShutdown` in the HTTP entry
point: signals call `handleShutdown`; `uncaughtException` logs then calls
`handleShutdown`; `unhandledRejection` only logs. -/
def httpProcessHandler : ProcEvent → List HandlerAction
  | ProcEvent.sigint => [HandlerAction.invokeShutdown]
  | ProcEvent.sigterm => [HandlerAction.invokeShutdown]
  | ProcEvent.uncaughtException => [HandlerAction.logIt, HandlerAction.invokeShutdown]
  | ProcEvent.unhandledRejection => [HandlerAction.logIt]

/-- Handler bodies registered by `setupGracefulShutdown` in the stdio entry
point: both `uncaughtException` and `unhandledRejection` log and then call
`handleShutdown`. -/
def stdioProcessHandler : ProcEvent → List HandlerAction
  | ProcEvent.sigint => [HandlerAction.invokeShutdown]
  | ProcEvent.sigterm => [HandlerAction.invokeShutdown]
  | ProcEvent.uncaughtException => [HandlerAction.logIt, HandlerAction.invokeShutdown]
  | ProcEvent.unhandledRejection => [HandlerAction.logIt, HandlerAction.invokeShutdown]

/-! ## Shutdown re-entrancy (src/unnamed/part_001 lines 141-185)

`handleShutdown` is `async` and contains `await` points before its final
`process.exit(0)`; the signal/exception handlers stay registered and carry
no guard flag, so every trigger delivered before the exit invokes
`handleShutdown` again. -/

/-- Event-loop events relevant to shutdown re-entrancy: a shutdown trigger
being delivered, and a running `handleShutdown` reaching `process.exit(0)`. -/
inductive LoopEvent
  | trigger
  | shutdownFinished
  deriving DecidableEq, Repr

/-- Process state: how many times the `handleShutdown` body has been
entered, and whether `process.exit` has run. -/
structure ProcState where
  entries : Nat
  exited : Bool
  deriving DecidableEq, Repr

/-- One event-loop step.  A trigger before exit unconditionally enters
`handleShutdown` (the source has no `isShuttingDown` guard); after
`process.exit` nothing runs. -/
def shutStep (s : ProcState) : LoopEvent → ProcState
  | LoopEvent.trigger =>
    if s.exited then s else { s with entries := s.entries + 1 }
  | LoopEvent.shutdownFinished =>
    if 0 < s.entries ∧ s.exited = false then { s with exited := true } else s

def shutRunFrom (s : ProcState) (tr : List LoopEvent) : ProcState :=
  tr.foldl shutStep s

def shutRun (tr : List LoopEvent) : ProcState :=
  shutRunFrom ⟨0, false⟩ tr

/-! ## Tool error path (src/src/tools/geminiTool.ts lines 168-184,
src/unnamed/part_004 lines 112-136 and 164-196) -/

/-- The data carried by an `ExternalApiError` instance.  `message` is the
final `Error.message`, i.e. already carries the `"External API error: "`
prefixing done by the constructor chain. -/
structure ExternalApiError where
  message : String
  statusCode : Option Nat
  apiResponse : Option String
  deriving DecidableEq, Repr

/-- Translation of `new ExternalApiError(msg, status, resp)`: the
constructor calls `super("External API error: " + msg)`. -/
def mkExternalApiError (msg : String) (status : Option Nat)
    (resp : Option String) : ExternalApiError :=
  { message := "External API error: " ++ msg
    statusCode := status
    apiResponse := resp }

/-- The values the tool's `catch` can receive, matching the `instanceof`
chain of `formatErrorForUser`. -/
inductive JsError
  | apiError (e : ExternalApiError)
  | genericError (message : String)
  | nonErrorValue (stringified : String)
  deriving DecidableEq, Repr

/-- The `(status N)` fragment: `error.statusCode ? \x60 (status ...)\x60 : ''`,
where a JS `0` is falsy. -/
def statusSuffix : Option Nat → String
  | none => ""
  | some c => if c = 0 then "" else " (status " ++ toString c ++ ")"

/-- Translation of `formatErrorForUser`. -/
def formatErrorForUser : JsError → String
  | JsError.apiError e => "API request failed" ++ statusSuffix e.statusCode ++ ": " ++ e.message
  | JsError.genericError m => m
  | JsError.nonErrorValue s => s

/-- One item of a CallToolResult's `content` array. -/
structure ContentItem where
  type : String
  text : String
  deriving DecidableEq, Repr

structure CallToolResult where
  content : List ContentItem
  isError : Bool
  deriving DecidableEq, Repr

/-- The registered `callGemini` handler as a function of the outcome of
`callGeminiApi`: on success wrap the text; on any thrown error return the
formatted result with `isError: true` (the `catch` branch) — the handler
itself is total, it never re-throws. -/
def callGeminiHandler (apiOutcome : Except JsError String) : CallToolResult :=
  match apiOutcome with
  | Except.ok text => { content := [{ type := "text", text := text }], isError := false }
  | Except.error e =>
    { content := [{ type := "text"
                    text := "Error interacting with Gemini API: " ++ formatErrorForUser e }]
      isError := true }

/-- The error `callGeminiApi` throws on `DEADLINE_EXCEEDED`:
`new ExternalApiError("Request timed out after " + config.requestTimeoutMs
+ "ms", 408, 'Request took too long to complete')`. -/
def timeoutApiError (timeoutMs : Nat) : JsError :=
  JsError.apiError
    (mkExternalApiError ("Request timed out after " ++ toString timeoutMs ++ "ms")
      (some 408) (some "Request took too long to complete"))

/-! ## Tool parameter validation (src/src/tools/geminiTool.ts lines 27-91)

The zod schema `geminiToolSchema`, field by field.  A raw argument object
is embedded with one `Option` per key (`none` = key absent / undefined);
JS numbers become `Rat`, with `.int()` as an integrality test. -/

structure RawToolInput where
  model : Option String
  prompt : Option String
  temperature : Option Rat
  maxOutputTokens : Option Rat
  topK : Option Rat
  topP : Option Rat
  enableGrounding : Option Bool
  deriving DecidableEq, Repr

/-- The validated argument object the tool implementation receives. -/
structure GeminiToolInput where
  model : String
  prompt : String
  temperature : Rat
  maxOutputTokens : Int
  topK : Option Int
  topP : Option Rat
  enableGrounding : Bool
  deriving DecidableEq, Repr

/-- `z.string().default("gemini-1.5-flash-latest")`. -/
def checkModel : Option String → String
  | none => "gemini-1.5-flash-latest"
  | some s => s

/-- `z.string().min(1)`, required. -/
def checkPrompt : Option String → Option String
  | none => none
  | some s => if 1 ≤ s.length then some s else none

/-- `z.number().min(0).max(1).optional().default(0.7)`. -/
def checkTemperature : Option Rat → Option Rat
  | none => some 0.7
  | some t => if 0 ≤ t ∧ t ≤ 1 then some t else none

/-- `z.number().int().positive().max(8192).optional().default(2048)`. -/
def checkMaxOutputTokens : Option Rat → Option Int
  | none => some 2048
  | some m => if m.den = 1 ∧ 0 < m ∧ m ≤ 8192 then some m.num else none

/-- `z.number().int().positive().optional()`. -/
def checkTopK : Option Rat → Option (Option Int)
  | none => some none
  | some k => if k.den = 1 ∧ 0 < k then some (some k.num) else none

/-- `z.number().min(0).max(1).optional()`. -/
def checkTopP : Option Rat → Option (Option Rat)
  | none => some none
  | some p => if 0 ≤ p ∧ p ≤ 1 then some (some p) else none

/-- `z.boolean().optional().default(true)`. -/
def checkEnableGrounding : Option Bool → Bool
  | none => true
  | some b => b

/-- Validation of the whole argument object: `none` models a zod rejection,
which the protocol layer performs before the tool implementation is
invoked. -/
def validateGeminiInput (raw : RawToolInput) : Option GeminiToolInput :=
  match checkPrompt raw.prompt, checkTemperature raw.temperature,
      checkMaxOutputTokens raw.maxOutputTokens, checkTopK raw.topK,
      checkTopP raw.topP with
  | some prompt, some temp, some maxTok, some tk, some tp =>
    some { model := checkModel raw.model
           prompt := prompt
           temperature := temp
           maxOutputTokens := maxTok
           topK := tk
           topP := tp
           enableGrounding := checkEnableGrounding raw.enableGrounding }
  | _, _, _, _, _ => none

/-! ## The /mcp catch branch (src/unnamed/part_001 lines 126-135) -/

/-- Observable state of the Express response object: whether headers have
gone out, and the (status, error-body) writes performed by this handler. -/
structure HttpResponse where
  headersSent : Bool
  sent : List (Nat × String)
  deriving DecidableEq, Repr

/-- Translation of the handler's `catch` branch: log, then
`if (!res.headersSent) res.status(500).json({ error: "Internal server
error" })`.  The write marks headers as sent. -/
def mcpCatchBranch (res : HttpResponse) : HttpResponse :=
  if !res.headersSent then
    { headersSent := true, sent := res.sent ++ [(500, "Internal server error")] }
  else res

/-! ## Log metadata redaction (src/dist/utils/logger.js lines 79-91) -/

/-- A JS value stored in a metadata object (enough structure to distinguish
nested objects from scalars). -/
inductive JsVal
  | str (s : String)
  | num (n : Int)
  | obj (fields : List (String × JsVal))

/-- Lower-cased character list of a key name: `key.toLowerCase()` on the
ASCII identifiers involved. -/
def lowerStr (s : String) : List Char :=
  s.data.map Char.toLower

/-- Leading-match step of `String.prototype.includes`: does `needle` occur
at the head of `hay`? -/
def seqLeads : List Char → List Char → Bool
  | [], _ => true
  | _ :: _, [] => false
  | a :: as, b :: bs => a == b && seqLeads as bs

/-- `hay.includes(needle)` on character lists. -/
def seqContains (hay needle : List Char) : Bool :=
  match hay with
  | [] => needle.isEmpty
  | _ :: t => seqLeads needle hay || seqContains t needle

/-- `sensitiveKeys` exactly as the source writes it — note the mixed-case
`'apiKey'` entry. -/
def sensitiveKeys : List String :=
  ["api_key", "apiKey", "key", "password", "secret", "token"]

/-- The redaction test of `sanitizeMetadata`:
`sensitiveKeys.some(s => key.toLowerCase().includes(s))`. -/
def isSensitiveKey (k : String) : Bool :=
  sensitiveKeys.any (fun s => seqContains (lowerStr k) s.data)

/-- Translation of `sanitizeMetadata`: shallow copy, then replace the value
of every top-level key passing the redaction test by `"[REDACTED]"`. -/
def sanitizeMetadata (meta : List (String × JsVal)) : List (String × JsVal) :=
  meta.map (fun p => if isSensitiveKey p.1 then (p.1, JsVal.str "[REDACTED]") else p)

/-- The redaction predicate as claim C10 words it: the lowercased key name
contains one of these all-lowercase substrings.  Stated from the claim, to
be compared with `isSensitiveKey`. -/
def claimSensitiveKey (k : String) : Bool :=
  ["api_key", "apikey", "key", "password", "secret", "token"].any
    (fun s => seqContains (lowerStr k) s.data)

/-! ## Theorems -/

/-- C1 (counterexample): a POST whose body is an initialization message and
which carries an *empty-valued* `mcp-session-id` header is classified by the
source as begin-session, because the empty string is JS-falsy and passes the
`!sessionId` guard — while the claim's own procedure, which keys on header
presence, rejects it.  The claim as stated therefore fails on this input. -/
theorem c1_router_counterexample :
    claimRouteC1 (fun _ => false) (some "") "POST" true
      = RouteOutcome.reject 400 "Invalid MCP request"
    ∧ routeMcp (fun _ => false) (some "") "POST" true
      = RouteOutcome.beginSession :=
  ⟨rfl, rfl⟩

/-- C1 (amended): the router classifies every request into exactly one of
continue/begin/reject, with the branches keyed on JS truthiness of the
header value: (1) a non-empty registered id continues that session; (2) an
absent *or empty* header with a POST initialization body begins a session;
(3) everything else — in particular every request carrying a non-empty
session id that is not in the registry, even with an initialization body —
is rejected with 400 `"Invalid MCP request"` and reaches no transport. -/
theorem c1_router_classification (registered : String → Bool)
    (sid : Option String) (method : String) (init : Bool) :
    (∀ id, sid = some id → id ≠ "" → registered id = true →
      routeMcp registered sid method init = RouteOutcome.continueSession id)
    ∧ ((sid = none ∨ sid = some "") → method = "POST" → init = true →
      routeMcp registered sid method init = RouteOutcome.beginSession)
    ∧ ((sid = none ∨ sid = some "") → ¬(method = "POST" ∧ init = true) →
      routeMcp registered sid method init = RouteOutcome.reject 400 "Invalid MCP request")
    ∧ (∀ id, sid = some id → id ≠ "" → registered id = false →
      routeMcp registered sid method init = RouteOutcome.reject 400 "Invalid MCP request") := by
  refine ⟨?_, ?_, ?_, ?_⟩
  · rintro id rfl hne hreg
    simp [routeMcp, headerTruthy, lookupGuard, hne, hreg]
  · rintro (rfl | rfl) rfl rfl <;> simp [routeMcp, headerTruthy, lookupGuard]
  · rintro (rfl | rfl) hn <;>
    · have hfalse : ((method == "POST") && init) = false := by
        rcases Bool.eq_false_or_eq_true init with hi | hi
        · have hm : method ≠ "POST" := fun heq => hn ⟨heq, hi⟩
          rw [hi, Bool.and_true, beq_eq_false_iff_ne]
          exact hm
        · simp [hi]
      simp [routeMcp, headerTruthy, lookupGuard, Bool.and_assoc, hfalse]
  · rintro id rfl hne hreg
    simp [routeMcp, headerTruthy, lookupGuard, hne, hreg]

/-- C1 (witness): a POST initialization request bearing an unknown non-empty
session id is rejected. -/
theorem c1_router_classification_witness :
    routeMcp (fun _ => false) (some "unknown-id") "POST" true
      = RouteOutcome.reject 400 "Invalid MCP request" :=
  (c1_router_classification (fun _ => false) (some "unknown-id") "POST" true).2.2.2
    "unknown-id" rfl (by decide) rfl

/-- Close loop characterization: the loop records one close attempt per
session of the snapshot in order, never propagates an exception (the catch
swallows it into a warning), and logs exactly the failures. -/
theorem closeLoop_spec (cb : String → Except String Unit) (xs : List String)
    (acc : ShutAcc) :
    jsForIn (closeLoopBody cb) xs acc = Except.ok
      { closeAttempts := acc.closeAttempts ++ xs
        closedOk := acc.closedOk ++ xs.filter (closeOk cb)
        closeWarnings := acc.closeWarnings ++ xs.filterMap (closeWarnOf cb) } := by
  induction xs generalizing acc with
  | nil => simp [jsForIn]
  | cons x rest ih =>
    cases hx : cb x with
    | ok u =>
      simp [jsForIn, closeLoopBody, hx, ih, List.filter_cons, List.filterMap_cons,
        closeOk, closeWarnOf]
    | error e =>
      simp [jsForIn, closeLoopBody, hx, ih, List.filter_cons, List.filterMap_cons,
        closeOk, closeWarnOf]

/-- C3: `handleShutdown` attempts to close every session present in the
snapshot (even when earlier closes throw — a failure only adds a warning),
then attempts to close the MCP server, and reaches `process.exit(0)`
(exit code 0) no matter which individual closes failed. -/
theorem c3_shutdown_best_effort (snapshot : List String)
    (closeBehavior : String → Except String Unit)
    (serverClose : Except String Unit) :
    handleShutdown snapshot closeBehavior serverClose = Except.ok
      { closes := { closeAttempts := snapshot
                    closedOk := snapshot.filter (closeOk closeBehavior)
                    closeWarnings := snapshot.filterMap (closeWarnOf closeBehavior) }
        serverCloseAttempted := true
        serverClosedOk := exceptOk serverClose
        exitCode := 0 } := by
  unfold handleShutdown
  rw [closeLoop_spec]
  cases serverClose <;> simp [exceptOk]

/-- C5 (counterexample): an unhandled promise rejection triggers the full
shutdown sequence in the stdio entry point, but in the HTTP entry point its
handler only logs — it never invokes `handleShutdown`.  The claim's "in
both the stdio and the HTTP entry points" is false. -/
theorem c5_fatal_error_counterexample :
    HandlerAction.invokeShutdown ∈ stdioProcessHandler ProcEvent.unhandledRejection
    ∧ HandlerAction.invokeShutdown ∉ httpProcessHandler ProcEvent.unhandledRejection := by
  decide

/-- C5 (amended): an uncaught exception triggers the full shutdown sequence
in both entry points; an unhandled rejection does so only in the stdio
entry point, while the HTTP entry point merely logs it and continues. -/
theorem c5_fatal_error_amended :
    HandlerAction.invokeShutdown ∈ httpProcessHandler ProcEvent.uncaughtException
    ∧ HandlerAction.invokeShutdown ∈ stdioProcessHandler ProcEvent.uncaughtException
    ∧ HandlerAction.invokeShutdown ∈ stdioProcessHandler ProcEvent.unhandledRejection
    ∧ httpProcessHandler ProcEvent.unhandledRejection = [HandlerAction.logIt] := by
  decide

/-- Running `k` triggers from a non-exited state enters the shutdown body
`k` more times. -/
theorem shutRunFrom_triggers (k n : Nat) :
    shutRunFrom ⟨n, false⟩ (List.replicate k LoopEvent.trigger) = ⟨n + k, false⟩ := by
  induction k generalizing n with
  | zero => rfl
  | succ k ih =>
    have h1 : shutRunFrom ⟨n, false⟩ (List.replicate (k + 1) LoopEvent.trigger)
        = shutRunFrom ⟨n + 1, false⟩ (List.replicate k LoopEvent.trigger) := by
      rw [List.replicate_succ]
      rfl
    rw [h1, ih]
    simp only [ProcState.mk.injEq, and_true]
    omega

/-- C6 (counterexample): two triggers delivered before `process.exit` runs
(possible because `handleShutdown` awaits between its start and the exit)
enter the shutdown sequence twice — the source has no re-entrancy guard, so
"triggered at most once" fails. -/
theorem c6_single_trigger_counterexample :
    ¬ (shutRun [LoopEvent.trigger, LoopEvent.trigger]).entries ≤ 1 := by
  decide

/-- C6 (amended): the handlers carry no guard flag, so every trigger
delivered before `process.exit(0)` re-enters the shutdown sequence — `k`
such triggers produce `k` entries; only once the process has exited do
further triggers have no effect. -/
theorem c6_shutdown_reentry :
    (∀ k, (shutRun (List.replicate k LoopEvent.trigger)).entries = k)
    ∧ (∀ tr, (shutRun tr).exited = true →
        shutRun (tr ++ [LoopEvent.trigger]) = shutRun tr) := by
  constructor
  · intro k
    rw [shutRun, shutRunFrom_triggers]
    simp
  · intro tr h
    simp only [shutRun, shutRunFrom] at h ⊢
    rw [List.foldl_append]
    simp [shutStep, h]

/-- C6 (witness): after a completed shutdown (trigger then exit), one more
trigger leaves the state unchanged. -/
theorem c6_shutdown_reentry_witness :
    shutRun ([LoopEvent.trigger, LoopEvent.shutdownFinished] ++ [LoopEvent.trigger])
      = shutRun [LoopEvent.trigger, LoopEvent.shutdownFinished] :=
  c6_shutdown_reentry.2 [LoopEvent.trigger, LoopEvent.shutdownFinished] (by decide)

/-- C4 (counterexample): the tool's timeout message is not the claimed
string — the `ExternalApiError` constructor chain inserts an
`"External API error: "` prefix that the claimed text omits. -/
theorem c4_tool_error_counterexample :
    callGeminiHandler (Except.error (timeoutApiError 30000)) ≠
      { content := [{ type := "text"
                      text := "Error interacting with Gemini API: API request failed (status 408): Request timed out after 30000ms" }]
        isError := true } := by
  decide

/-- C4 (amended): the tool boundary never propagates a failure as an
exception — `callGeminiHandler` is a total function returning, for every
error, a normal result with `isError = true` whose content is a single text
item; for the simulated 30000 ms timeout the result is exactly the record
below (with the constructor's `External API error: ` prefix in the text). -/
theorem c4_tool_error_result :
    (∀ e, (callGeminiHandler (Except.error e)).isError = true
      ∧ ∃ s, (callGeminiHandler (Except.error e)).content = [{ type := "text", text := s }])
    ∧ callGeminiHandler (Except.error (timeoutApiError 30000)) =
      { content := [{ type := "text"
                      text := "Error interacting with Gemini API: API request failed (status 408): External API error: Request timed out after 30000ms" }]
        isError := true } := by
  constructor
  · intro e
    exact ⟨rfl, ⟨_, rfl⟩⟩
  · rfl

/-- C9: when an exception escapes the `/mcp` handler, the catch branch
writes the 500 `"Internal server error"` response exactly when headers have
not yet been sent, and writes nothing at all when they have. -/
theorem c9_catch_headers_sent (res : HttpResponse) :
    (res.headersSent = true → mcpCatchBranch res = res)
    ∧ (res.headersSent = false →
      mcpCatchBranch res =
        { headersSent := true, sent := res.sent ++ [(500, "Internal server error")] }) := by
  constructor
  · intro h
    simp [mcpCatchBranch, h]
  · intro h
    simp [mcpCatchBranch, h]

/-- C9 (witness): both sides of the headers-sent test at concrete
responses. -/
theorem c9_catch_headers_sent_witness :
    mcpCatchBranch ⟨true, []⟩ = ⟨true, []⟩
    ∧ mcpCatchBranch ⟨false, []⟩ = ⟨true, [(500, "Internal server error")]⟩ :=
  ⟨(c9_catch_headers_sent ⟨true, []⟩).1 rfl, (c9_catch_headers_sent ⟨false, []⟩).2 rfl⟩

/-- Deleting key `id'` does not change what a search for a different key
`id` finds. -/
theorem find?_filter_ne (r : Registry) (id id' : String) (h : id' ≠ id) :
    (r.filter (fun p => !(p.1 == id'))).find? (fun p => p.1 == id)
      = r.find? (fun p => p.1 == id) := by
  induction r with
  | nil => rfl
  | cons p rest ih =>
    by_cases h1 : p.1 = id'
    · have h2 : (p.1 == id) = false := by
        rw [beq_eq_false_iff_ne, h1]
        exact h
      rw [List.filter_cons_of_neg (by simp [h1]), List.find?_cons_of_neg _ (by simp [h2])]
      exact ih
    · rw [List.filter_cons_of_pos (by simp [h1])]
      by_cases hid : p.1 = id
      · rw [List.find?_cons_of_pos _ (by simp [hid]), List.find?_cons_of_pos _ (by simp [hid])]
      · rw [List.find?_cons_of_neg _ (by simp [hid]), List.find?_cons_of_neg _ (by simp [hid])]
        exact ih

theorem rget_rset_self (r : Registry) (id : String) (t : Transport) :
    rget (rset r id t) id = some t := by
  unfold rget rset
  rw [List.find?_cons_of_pos _ (by simp)]
  rfl

theorem rget_rset_ne (r : Registry) (id id' : String) (t : Transport) (h : id' ≠ id) :
    rget (rset r id' t) id = rget r id := by
  unfold rget rset
  rw [List.find?_cons_of_neg _ (by simp [h]), find?_filter_ne r id id' h]

theorem rget_rdel_self (r : Registry) (id : String) :
    rget (rdel r id) id = none := by
  unfold rget rdel
  rw [Option.map_eq_none', List.find?_eq_none]
  intro x hx
  rw [List.mem_filter] at hx
  simpa using hx.2

theorem rget_rdel_ne (r : Registry) (id id' : String) (h : id' ≠ id) :
    rget (rdel r id') id = rget r id := by
  unfold rget rdel
  rw [find?_filter_ne r id id' h]

/-- C8: session removal is idempotent — running the `onclose` handler twice
for the same transport leaves the registry exactly as running it once, a
bare delete twice equals a delete once, and deleting an id that is not
present is a no-op. -/
theorem c8_remove_idempotent (r : Registry) (sid : Option String) (id : String) :
    oncloseHandler (oncloseHandler r sid) sid = oncloseHandler r sid
    ∧ rdel (rdel r id) id = rdel r id
    ∧ (rget r id = none → rdel r id = r) := by
  refine ⟨?_, ?_, ?_⟩
  · cases sid with
    | none => rfl
    | some i =>
      by_cases hi : i = ""
      · simp [oncloseHandler, hi]
      · by_cases hp : (rget r i).isSome
        · have h1 : oncloseHandler r (some i) = rdel r i := by
            simp [oncloseHandler, hi, hp]
          rw [h1]
          simp [oncloseHandler, hi, rget_rdel_self]
        · simp [oncloseHandler, hi, hp]
  · unfold rdel
    rw [List.filter_filter]
    congr 1
    funext p
    simp
  · intro h
    unfold rget at h
    rw [Option.map_eq_none', List.find?_eq_none] at h
    unfold rdel
    rw [List.filter_eq_self]
    intro x hx
    simpa using h x hx

/-- C8 (witness): deleting from a registry that does not hold the id is a
no-op. -/
theorem c8_remove_idempotent_witness :
    rdel ([] : Registry) "gone" = [] :=
  (c8_remove_idempotent [] (some "gone") "gone").2.2 rfl

/-- If any field check fails, the whole validation fails. -/
theorem validate_none_of_check (raw : RawToolInput)
    (h : checkPrompt raw.prompt = none ∨ checkTemperature raw.temperature = none
      ∨ checkMaxOutputTokens raw.maxOutputTokens = none) :
    validateGeminiInput raw = none := by
  unfold validateGeminiInput
  cases h1 : checkPrompt raw.prompt <;> cases h2 : checkTemperature raw.temperature <;>
    cases h3 : checkMaxOutputTokens raw.maxOutputTokens <;>
    cases h4 : checkTopK raw.topK <;> cases h5 : checkTopP raw.topP <;>
    simp_all

/-- C7: zod validation of the tool arguments rejects — before the tool
implementation runs — any temperature outside [0,1], any empty prompt, and
any maxOutputTokens that is not an integer in [1,8192]; and when omitted,
`model` defaults to `"gemini-1.5-flash-latest"`, `temperature` to 0.7 and
`maxOutputTokens` to 2048. -/
theorem c7_tool_validation :
    (∀ (raw : RawToolInput) (t : Rat), raw.temperature = some t → (t < 0 ∨ 1 < t) →
      validateGeminiInput raw = none)
    ∧ (∀ raw : RawToolInput, raw.prompt = some "" → validateGeminiInput raw = none)
    ∧ (∀ (raw : RawToolInput) (m : Rat), raw.maxOutputTokens = some m →
      (m.den ≠ 1 ∨ m < 1 ∨ 8192 < m) → validateGeminiInput raw = none)
    ∧ (∀ (raw : RawToolInput) (res : GeminiToolInput), validateGeminiInput raw = some res →
      (raw.model = none → res.model = "gemini-1.5-flash-latest")
      ∧ (raw.temperature = none → res.temperature = 0.7)
      ∧ (raw.maxOutputTokens = none → res.maxOutputTokens = 2048)) := by
  refine ⟨?_, ?_, ?_, ?_⟩
  · intro raw t ht hout
    apply validate_none_of_check
    right
    left
    rw [ht]
    simp only [checkTemperature]
    rw [if_neg]
    rintro ⟨h0, h1⟩
    rcases hout with h | h
    · exact absurd h0 (not_le.mpr h)
    · exact absurd h1 (not_le.mpr h)
  · intro raw hp
    apply validate_none_of_check
    left
    rw [hp]
    simp only [checkPrompt]
    rw [if_neg]
    simp
  · intro raw m hm hbad
    apply validate_none_of_check
    right
    right
    rw [hm]
    simp only [checkMaxOutputTokens]
    rw [if_neg]
    rintro ⟨hden, hpos, hle⟩
    rcases hbad with h | h | h
    · exact h hden
    · have hm1 : m = (m.num : Rat) := by
        conv_lhs => rw [← Rat.num_div_den m]
        rw [hden]
        simp
      have hnum : 0 < m.num := Rat.num_pos.mpr hpos
      have hge : (1 : Rat) ≤ (m.num : Rat) := by
        exact_mod_cast hnum
      rw [← hm1] at hge
      exact absurd hge (not_le.mpr h)
    · exact absurd hle (not_le.mpr h)
  · intro raw res hv
    unfold validateGeminiInput at hv
    cases h1 : checkPrompt raw.prompt <;> rw [h1] at hv <;>
      cases h2 : checkTemperature raw.temperature <;> rw [h2] at hv <;>
      cases h3 : checkMaxOutputTokens raw.maxOutputTokens <;> rw [h3] at hv <;>
      cases h4 : checkTopK raw.topK <;> rw [h4] at hv <;>
      cases h5 : checkTopP raw.topP <;> rw [h5] at hv
    all_goals try exact Option.noConfusion hv
    injection hv with hv
    subst hv
    refine ⟨?_, ?_, ?_⟩
    · intro hmod
      simp [checkModel, hmod]
    · intro htemp
      rw [htemp] at h2
      simp only [checkTemperature, Option.some.injEq] at h2
      simp [← h2]
    · intro hmax
      rw [hmax] at h3
      simp only [checkMaxOutputTokens, Option.some.injEq] at h3
      simp [← h3]

/-- C7 (witness): 1.5 temperature, empty prompt and 9000 maxOutputTokens are
each rejected at concrete inputs, and a minimal argument object receives all
three defaults. -/
theorem c7_tool_validation_witness :
    validateGeminiInput ⟨none, some "hi", some 1.5, none, none, none, none⟩ = none
    ∧ validateGeminiInput ⟨none, some "", none, none, none, none, none⟩ = none
    ∧ validateGeminiInput ⟨none, some "hi", none, some 9000, none, none, none⟩ = none
    ∧ ({ model := "gemini-1.5-flash-latest", prompt := "hi", temperature := 0.7,
         maxOutputTokens := 2048, topK := none, topP := none,
         enableGrounding := true } : GeminiToolInput).model = "gemini-1.5-flash-latest" :=
  ⟨c7_tool_validation.1 ⟨none, some "hi", some 1.5, none, none, none, none⟩ 1.5 rfl
      (by norm_num),
    c7_tool_validation.2.1 ⟨none, some "", none, none, none, none, none⟩ rfl,
    c7_tool_validation.2.2.1 ⟨none, some "hi", none, some 9000, none, none, none⟩ 9000 rfl
      (by norm_num),
    (c7_tool_validation.2.2.2 ⟨none, some "hi", none, none, none, none, none⟩
      { model := "gemini-1.5-flash-latest", prompt := "hi", temperature := 0.7,
        maxOutputTokens := 2048, topK := none, topP := none, enableGrounding := true }
      rfl).1 rfl⟩

theorem runFrom_cons (r : Registry) (e : RegEvent) (es : List RegEvent) :
    runFrom r (e :: es) = runFrom (applyEvent r e) es := rfl

theorem runFrom_append (r : Registry) (xs ys : List RegEvent) :
    runFrom r (xs ++ ys) = runFrom (runFrom r xs) ys := by
  unfold runFrom
  rw [List.foldl_append]

/-- Freshness is preserved along a prefix of the trace. -/
theorem wfFrom_append (r : Registry) (xs ys : List RegEvent)
    (h : wfFrom r (xs ++ ys) = true) : wfFrom (runFrom r xs) ys = true := by
  induction xs generalizing r with
  | nil => simpa using h
  | cons e rest ih =>
    cases e with
    | reg id t =>
      rw [List.cons_append] at h
      simp only [wfFrom, Bool.and_eq_true] at h
      exact ih (rset r id t) h.2
    | rem id =>
      rw [List.cons_append] at h
      simp only [wfFrom] at h
      exact ih (rdel r id) h

/-- If a lookup after running a trace succeeds, the binding comes either
from a `reg` event of the trace with no later removal or re-registration of
the id, or untouched from the initial registry. -/
theorem rget_runFrom_some (es : List RegEvent) (r : Registry) (id : String)
    (t : Transport) (h : rget (runFrom r es) id = some t) :
    (∃ pre post, es = pre ++ RegEvent.reg id t :: post
      ∧ (∀ e ∈ post, e ≠ RegEvent.rem id ∧ ∀ t', e ≠ RegEvent.reg id t'))
    ∨ (rget r id = some t
      ∧ ∀ e ∈ es, e ≠ RegEvent.rem id ∧ ∀ t', e ≠ RegEvent.reg id t') := by
  induction es generalizing r with
  | nil =>
    right
    exact ⟨h, by simp⟩
  | cons e rest ih =>
    rw [runFrom_cons] at h
    rcases ih (applyEvent r e) h with ⟨pre, post, heq, hpost⟩ | ⟨hr, hclean⟩
    · left
      exact ⟨e :: pre, post, by rw [heq, List.cons_append], hpost⟩
    · cases e with
      | reg id' t' =>
        by_cases hid : id' = id
        · subst hid
          simp only [applyEvent] at hr
          rw [rget_rset_self] at hr
          injection hr with hr
          subst hr
          left
          exact ⟨[], rest, rfl, hclean⟩
        · right
          simp only [applyEvent] at hr
          rw [rget_rset_ne r id id' t' hid] at hr
          refine ⟨hr, ?_⟩
          intro e he
          rcases List.mem_cons.mp he with rfl | he'
          · exact ⟨by simp, fun t'' => by simp [hid]⟩
          · exact hclean e he'
      | rem id' =>
        by_cases hid : id' = id
        · subst hid
          simp only [applyEvent] at hr
          rw [rget_rdel_self] at hr
          exact absurd hr (by simp)
        · right
          simp only [applyEvent] at hr
          rw [rget_rdel_ne r id id' hid] at hr
          refine ⟨hr, ?_⟩
          intro e he
          rcases List.mem_cons.mp he with rfl | he'
          · exact ⟨by simp [hid], fun t'' => by simp⟩
          · exact hclean e he'

/-- A binding survives any fresh-id suffix that never removes its id. -/
theorem rget_runFrom_of_clean (post : List RegEvent) (r : Registry)
    (id : String) (t : Transport) (hwf : wfFrom r post = true)
    (hr : rget r id = some t) (hpost : ∀ e ∈ post, e ≠ RegEvent.rem id) :
    rget (runFrom r post) id = some t := by
  induction post generalizing r with
  | nil => exact hr
  | cons e rest ih =>
    cases e with
    | reg id' t' =>
      simp only [wfFrom, Bool.and_eq_true] at hwf
      have hne : id' ≠ id := by
        intro heq
        subst heq
        have h1 := hwf.1
        rw [hr] at h1
        simp at h1
      rw [runFrom_cons]
      simp only [applyEvent]
      apply ih (rset r id' t') hwf.2
      · rw [rget_rset_ne r id id' t' hne]
        exact hr
      · intro e he
        exact hpost e (List.mem_cons_of_mem _ he)
    | rem id' =>
      have hne : id' ≠ id := fun heq =>
        (hpost (RegEvent.rem id') (List.mem_cons_self _ _)) (by rw [heq])
      simp only [wfFrom] at hwf
      rw [runFrom_cons]
      simp only [applyEvent]
      apply ih (rdel r id') hwf
      · rw [rget_rdel_ne r id id' hne]
        exact hr
      · intro e he
        exact hpost e (List.mem_cons_of_mem _ he)

theorem keys_nodup_rset (r : Registry) (id : String) (t : Transport)
    (h : (r.map Prod.fst).Nodup) : ((rset r id t).map Prod.fst).Nodup := by
  unfold rset
  rw [List.map_cons, List.nodup_cons]
  constructor
  · intro hmem
    rw [List.mem_map] at hmem
    obtain ⟨p, hp, hfst⟩ := hmem
    rw [List.mem_filter] at hp
    have h2 := hp.2
    simp only [Bool.not_eq_true', beq_eq_false_iff_ne] at h2
    exact h2 hfst
  · have hs : ((r.filter fun p => !(p.1 == id)).map Prod.fst).Sublist (r.map Prod.fst) :=
      List.Sublist.map _ (List.filter_sublist _)
    exact List.Nodup.sublist hs h

theorem keys_nodup_rdel (r : Registry) (id : String)
    (h : (r.map Prod.fst).Nodup) : ((rdel r id).map Prod.fst).Nodup := by
  unfold rdel
  have hs : ((r.filter fun p => !(p.1 == id)).map Prod.fst).Sublist (r.map Prod.fst) :=
    List.Sublist.map _ (List.filter_sublist _)
  exact List.Nodup.sublist hs h

theorem keys_nodup_runFrom (es : List RegEvent) (r : Registry)
    (h : (r.map Prod.fst).Nodup) : ((runFrom r es).map Prod.fst).Nodup := by
  induction es generalizing r with
  | nil => exact h
  | cons e rest ih =>
    rw [runFrom_cons]
    cases e with
    | reg id t => exact ih _ (keys_nodup_rset r id t h)
    | rem id => exact ih _ (keys_nodup_rdel r id h)

/-- C2: under the id generator's freshness guarantee, a lookup in the
`transports` record returns transport `t` for id `id` iff the trace
registered `t` for `id` (via `onsessioninitialized`) and no later removal
of `id` (via `onclose`) occurred; and the registry never maps one id to two
transports (its keys stay pairwise distinct). -/
theorem c2_registry_lookup (es : List RegEvent) (id : String) (t : Transport)
    (hwf : wfFrom [] es = true) :
    (rget (runEvents es) id = some t ↔
      ∃ pre post, es = pre ++ RegEvent.reg id t :: post
        ∧ ∀ e ∈ post, e ≠ RegEvent.rem id)
    ∧ ((runEvents es).map Prod.fst).Nodup := by
  refine ⟨⟨?_, ?_⟩, ?_⟩
  · intro h
    rcases rget_runFrom_some es [] id t h with ⟨pre, post, heq, hpost⟩ | ⟨hr, _⟩
    · exact ⟨pre, post, heq, fun e he => (hpost e he).1⟩
    · exact absurd hr (by simp [rget])
  · rintro ⟨pre, post, rfl, hpost⟩
    rw [runEvents, runFrom_append]
    have hwf2 := wfFrom_append [] pre _ hwf
    rw [runFrom_cons]
    simp only [applyEvent]
    simp only [wfFrom, Bool.and_eq_true] at hwf2
    exact rget_runFrom_of_clean post _ id t hwf2.2 (rget_rset_self _ id t) hpost
  · apply keys_nodup_runFrom
    simp

/-- C2 (witness): in the trace register a, remove a, register b, the lookup
of b returns its transport. -/
theorem c2_registry_lookup_witness :
    rget (runEvents [RegEvent.reg "a" 1, RegEvent.rem "a", RegEvent.reg "b" 2]) "b"
      = some 2 :=
  ((c2_registry_lookup [RegEvent.reg "a" 1, RegEvent.rem "a", RegEvent.reg "b" 2] "b" 2
      (by decide)).1).mpr
    ⟨[RegEvent.reg "a" 1, RegEvent.rem "a"], [], rfl, by simp⟩

/-- A leading match is exactly a decomposition `hay = needle ++ rest`. -/
theorem seqLeads_iff (needle hay : List Char) :
    seqLeads needle hay = true ↔ ∃ rest, hay = needle ++ rest := by
  induction needle generalizing hay with
  | nil => simp [seqLeads]
  | cons a as ih =>
    cases hay with
    | nil => simp [seqLeads]
    | cons b bs =>
      simp only [seqLeads, Bool.and_eq_true, beq_iff_eq, ih, List.cons_append,
        List.cons.injEq]
      constructor
      · rintro ⟨rfl, rest, rfl⟩
        exact ⟨rest, rfl, rfl⟩
      · rintro ⟨rest, rfl, rfl⟩
        exact ⟨rfl, rest, rfl⟩

/-- Containment is exactly an occurrence decomposition. -/
theorem seqContains_iff (hay needle : List Char) :
    seqContains hay needle = true ↔ ∃ pre post, hay = pre ++ needle ++ post := by
  induction hay with
  | nil =>
    cases needle <;> simp [seqContains]
  | cons x t ih =>
    simp only [seqContains, Bool.or_eq_true, seqLeads_iff, ih]
    constructor
    · rintro (⟨rest, heq⟩ | ⟨pre, post, heq⟩)
      · exact ⟨[], rest, by simpa using heq⟩
      · exact ⟨x :: pre, post, by simp [heq]⟩
    · rintro ⟨pre, post, heq⟩
      cases pre with
      | nil =>
        left
        exact ⟨post, by simpa using heq⟩
      | cons p ps =>
        right
        rw [List.cons_append, List.cons_append, List.cons.injEq] at heq
        exact ⟨ps, post, heq.2⟩

/-- Substring containment is transitive. -/
theorem seqContains_trans (l a b : List Char) (hla : seqContains l a = true)
    (hab : seqContains a b = true) : seqContains l b = true := by
  rw [seqContains_iff] at hla hab ⊢
  obtain ⟨p1, q1, h1⟩ := hla
  obtain ⟨p2, q2, h2⟩ := hab
  refine ⟨p1 ++ p2, q2 ++ q1, ?_⟩
  rw [h1, h2]
  simp

/-- ASCII lower-casing never produces an upper-case `K`. -/
theorem toLower_ne_K (c : Char) : Char.toLower c ≠ 'K' := by
  unfold Char.toLower
  simp only []
  split
  · rename_i h
    have hv : (c.toNat + 32).isValidChar := by
      constructor
      omega
    have h1 : (Char.ofNat (c.toNat + 32)).toNat = c.toNat + 32 := by
      rw [Char.ofNat, dif_pos hv]
      rfl
    intro hK
    rw [hK] at h1
    have h2 : ('K').toNat = 75 := rfl
    omega
  · rename_i h
    intro hK
    subst hK
    exact h (by constructor <;> decide)

/-- The `'apiKey'` entry of `sensitiveKeys` can never match: the key name has
been lower-cased, so it contains no `'K'`. -/
theorem apiKey_entry_dead (k : String) :
    seqContains (lowerStr k) ("apiKey".data) = false := by
  by_contra h
  rw [Bool.not_eq_false, seqContains_iff] at h
  obtain ⟨pre, post, heq⟩ := h
  have hKin : 'K' ∈ ("apiKey".data) := by decide
  have hK : 'K' ∈ lowerStr k := by
    rw [heq]
    exact List.mem_append.mpr (Or.inl (List.mem_append.mpr (Or.inr hKin)))
  rw [lowerStr, List.mem_map] at hK
  obtain ⟨c, _, hc⟩ := hK
  exact toLower_ne_K c hc

/-- A match for `"apikey"` is in particular a match for `"key"`. -/
theorem apikey_sub_key (l : List Char) (h : seqContains l ("apikey".data) = true) :
    seqContains l ("key".data) = true :=
  seqContains_trans l ("apikey".data) ("key".data) h (by decide)

/-- The source's redaction test agrees with the claim's: the dead `'apiKey'`
entry is subsumed by `'key'` (and so is the claim's `'apikey'`). -/
theorem sensitive_eq (k : String) : isSensitiveKey k = claimSensitiveKey k := by
  simp only [isSensitiveKey, claimSensitiveKey, sensitiveKeys, List.any_cons,
    List.any_nil]
  rw [apiKey_entry_dead k]
  cases hak : seqContains (lowerStr k) ("apikey".data)
  · simp [hak]
  · have hk := apikey_sub_key _ hak
    simp [hak, hk]

/-- C10: log-metadata redaction is shallow and replaces exactly the values
of those top-level keys whose lowercased name contains one of the
substrings api_key, apikey, key, password, secret, token by `"[REDACTED]"`;
every other entry — nested objects included — passes through unchanged. -/
theorem c10_sanitize_shallow (meta : List (String × JsVal)) :
    sanitizeMetadata meta
      = meta.map (fun p =>
          if claimSensitiveKey p.1 then (p.1, JsVal.str "[REDACTED]") else p) := by
  unfold sanitizeMetadata
  congr 1
  funext p
  rw [sensitive_eq p.1]

end GeminiMcp
